import Mathlib

/-!
Shallow embedding of the cellocity core (channel.py and analysis.py): the
channel array/metadata model, the two optical-flow estimator wrappers, the
temporal median filter, and the derived-metric computations (speed averages,
alignment index, instantaneous order parameter).

Image samples and calibration values are modelled as exact rationals (the
Python code computes with IEEE floats; every concrete input evaluated below
is exactly representable, so float and rational results coincide there).
NaN values that flow through numpy arrays are modelled as `none` in
`Option ℚ` / `Option ℝ`.  External numerical kernels that the spec places
out of scope (cv.calcOpticalFlowFarneback, openpiv.process) are taken as
function parameters.
-/

namespace Cellocity

/-- A single 2D image plane (rows of pixel samples), as stored in one tif page
or one time slice of a numpy array. -/
abbrev Frame := List (List ℚ)

/-- np.mean of a 1D array: sum divided by length. -/
def mean (l : List ℚ) : ℚ := l.sum / l.length

/-- Round half to even at the integers, as Python's builtin `round` does. -/
def roundHalfEven (q : ℚ) : ℤ :=
  let f := ⌊q⌋
  let r := q - f
  if r < 1/2 then f
  else if 1/2 < r then f + 1
  else if f % 2 = 0 then f else f + 1

/-- Python `round(q, 2)`: round to two decimal places, ties to even. -/
def round2 (q : ℚ) : ℚ := (roundHalfEven (q * 100) : ℚ) / 100

/-- The unit strings accepted by FlowAnalyzer.__init__ (self.allowed_units). -/
def allowed_units : List String := ["um/s", "um/min", "um/h"]

/-- FlowAnalyzer._getScaler: converts px/frame to the chosen physical unit from
pixel size (um) and frame interval (ms).  The three branches are checked in
source order (um/min, um/h, um/s); an unlisted unit falls off the end of the
method (returns None), though FlowAnalyzer.__init__ asserts the unit is one of
`allowed_units` before calling it. -/
def getScaler (pxSize_um finterval_ms : ℚ) (unit : String) : Option ℚ :=
  let finterval_s := finterval_ms / 1000
  if unit = "um/min" then some (pxSize_um * round2 (60 / finterval_s))
  else if unit = "um/h" then some (pxSize_um * round2 (60 * 60 / finterval_s))
  else if unit = "um/s" then some (pxSize_um * finterval_s)
  else none

/-- FlowAnalyzer.__init__: asserts the unit string, then computes the scaler. -/
def flowAnalyzerScaler (pxSize_um finterval_ms : ℚ) (unit : String) :
    Except String ℚ :=
  if unit ∈ allowed_units then
    match getScaler pxSize_um finterval_ms unit with
    | some s => .ok s
    | none => .error "unreachable"
  else .error "unit has to be one of allowed_units"

/-- C1: at pixel size 1 um and frame interval 2000 ms the code's scaler for
um/min is 30 while 60 times its scaler for um/s is 120: the documented
relation scaler(um/min) = scaler(um/s) * 60 fails on the code, because the
um/s branch multiplies by seconds-per-frame instead of dividing
(frames-per-second). -/
theorem getScaler_um_s_bug :
    getScaler 1 2000 "um/min" = some 30 ∧
    getScaler 1 2000 "um/s" = some 2 ∧
    ((30 : ℚ) ≠ 2 * 60) := by
  refine ⟨?_, ?_, by norm_num⟩ <;>
    norm_num +decide [getScaler, round2, roundHalfEven]

/-- List indexing lemma: indexing into the image of a map over List.range. -/
theorem getD_map_range {α : Type} (f : ℕ → α) (n i : ℕ) (d : α) (h : i < n) :
    ((List.range n).map f).getD i d = f i := by
  rw [List.getD_eq_getElem?_getD, List.getElem?_map, List.getElem?_range h]
  rfl

/-- FarenbackAnalyzer.doFarenbackFlow: allocates an output with
arr.shape[0] - 1 time slices, asserts at least one flow frame, then fills
slice i with the backend flow between frames i and i+1.  The dense backend
cv.calcOpticalFlowFarneback is an external collaborator and is taken as the
parameter calcFlow. -/
def doFarenbackFlow (calcFlow : Frame → Frame → List (List (ℚ × ℚ)))
    (arr : List Frame) : Except String (List (List (List (ℚ × ℚ)))) :=
  if arr.length - 1 < 1 then .error "0 flow frames!"
  else .ok ((List.range (arr.length - 1)).map fun i =>
    calcFlow (arr.getD i []) (arr.getD (i + 1) []))

/-- np.concatenate of a u-component array and a v-component array along the
last axis: pair up corresponding entries. -/
def zipUV (u v : List (List ℚ)) : List (List (ℚ × ℚ)) :=
  List.zipWith (List.zipWith Prod.mk) u v

/-- OpenPivAnalyzer.doOpenPIV: asserts at least one flow frame, obtains the
window-center coordinate grids for arr[0].shape, flips the y grid by
subtracting it from arr.shape[2] (the image WIDTH, i.e. the column count of
the frames), computes per-pair (u, v) via the windowed backend, negates v,
and concatenates components.  The openpiv backend functions get_coordinates
and extended_search_area_piv are external collaborators taken as
parameters. -/
def doOpenPIV (get_coordinates : ℕ × ℕ → List (List ℚ) × List (List ℚ))
    (extended_search_area_piv : Frame → Frame → List (List ℚ) × List (List ℚ))
    (arr : List Frame) :
    Except String (List (List (List (ℚ × ℚ))) × List (List (ℚ × ℚ))) :=
  let n_frames := arr.length - 1
  if n_frames < 1 then .error "0 flow frames!"
  else
    let frame0 := arr.getD 0 []
    let xy := get_coordinates (frame0.length, (frame0.getD 0 []).length)
    let shape2 : ℚ := ((frame0.getD 0 []).length : ℚ)
    let y := xy.2.map fun row => row.map fun t => shape2 - t
    let flows := (List.range n_frames).map fun i =>
      let uv := extended_search_area_piv (arr.getD i []) (arr.getD (i + 1) [])
      zipUV uv.1 (uv.2.map fun row => row.map Neg.neg)
    .ok (flows, zipUV xy.1 y)

/-- C2: for a channel array with N >= 2 frames both estimators succeed and
produce exactly N - 1 time slices, slice i being computed from the
consecutive frame pair (i, i+1); for fewer than 2 frames both fail with an
error instead of producing a field. -/
theorem flow_output_length
    (calcFlow : Frame → Frame → List (List (ℚ × ℚ)))
    (get_coordinates : ℕ × ℕ → List (List ℚ) × List (List ℚ))
    (extended_search_area_piv : Frame → Frame → List (List ℚ) × List (List ℚ))
    (arr : List Frame) :
    (2 ≤ arr.length →
      ∃ flows, doFarenbackFlow calcFlow arr = .ok flows ∧
        flows.length = arr.length - 1 ∧
        ∀ i, i < arr.length - 1 →
          flows.getD i [] = calcFlow (arr.getD i []) (arr.getD (i + 1) [])) ∧
    (2 ≤ arr.length →
      ∃ flows coords,
        doOpenPIV get_coordinates extended_search_area_piv arr = .ok (flows, coords) ∧
        flows.length = arr.length - 1 ∧
        ∀ i, i < arr.length - 1 →
          flows.getD i [] =
            zipUV (extended_search_area_piv (arr.getD i []) (arr.getD (i + 1) [])).1
              ((extended_search_area_piv (arr.getD i []) (arr.getD (i + 1) [])).2.map
                fun row => row.map Neg.neg)) ∧
    (arr.length < 2 →
      doFarenbackFlow calcFlow arr = .error "0 flow frames!" ∧
      doOpenPIV get_coordinates extended_search_area_piv arr = .error "0 flow frames!") := by
  refine ⟨fun h => ?_, fun h => ?_, fun h => ?_⟩
  · have hc : ¬ (arr.length - 1 < 1) := by omega
    refine ⟨(List.range (arr.length - 1)).map fun i =>
      calcFlow (arr.getD i []) (arr.getD (i + 1) []), ?_, ?_, ?_⟩
    · rw [doFarenbackFlow, if_neg hc]
    · rw [List.length_map, List.length_range]
    · intro i hi
      exact getD_map_range _ _ _ _ hi
  · have hc : ¬ (arr.length - 1 < 1) := by omega
    refine ⟨(List.range (arr.length - 1)).map fun i =>
        zipUV (extended_search_area_piv (arr.getD i []) (arr.getD (i + 1) [])).1
          ((extended_search_area_piv (arr.getD i []) (arr.getD (i + 1) [])).2.map
            fun row => row.map Neg.neg),
      zipUV (get_coordinates ((arr.getD 0 []).length, ((arr.getD 0 []).getD 0 []).length)).1
        ((get_coordinates ((arr.getD 0 []).length, ((arr.getD 0 []).getD 0 []).length)).2.map
          fun row => row.map fun t => (((arr.getD 0 []).getD 0 []).length : ℚ) - t),
      ?_, ?_, ?_⟩
    · rw [doOpenPIV]
      simp only []
      rw [if_neg hc]
    · rw [List.length_map, List.length_range]
    · intro i hi
      exact getD_map_range _ _ _ _ hi
  · have hc : arr.length - 1 < 1 := by omega
    constructor
    · rw [doFarenbackFlow, if_pos hc]
    · rw [doOpenPIV]
      simp only []
      rw [if_pos hc]

/-- C2 witness: a concrete 2-frame channel with trivial backends, where both
estimators return exactly one flow slice. -/
theorem flow_output_length_witness :
    2 ≤ ([[], []] : List Frame).length ∧
    (∃ flows, doFarenbackFlow (fun _ _ => [[(1, 0)]]) [[], []] = .ok flows ∧
      flows.length = ([[], []] : List Frame).length - 1 ∧
      ∀ i, i < ([[], []] : List Frame).length - 1 →
        flows.getD i [] =
          (fun _ _ => [[((1 : ℚ), (0 : ℚ))]]) (([[], []] : List Frame).getD i [])
            (([[], []] : List Frame).getD (i + 1) [])) :=
  ⟨by norm_num,
    (flow_output_length (fun _ _ => [[(1, 0)]]) (fun _ => ([], []))
      (fun _ _ => ([], [])) [[], []]).1 (by norm_num)⟩

/-- Concrete backend stand-ins used to evaluate doOpenPIV on one input. -/
def constCoords : ℕ × ℕ → List (List ℚ) × List (List ℚ) := fun _ => ([[5]], [[1]])

/-- A windowed-backend stand-in returning u = 2, v = 3 for the single window. -/
def constPiv : Frame → Frame → List (List ℚ) × List (List ℚ) := fun _ _ => ([[2]], [[3]])

/-- Two identical non-square frames of 2 rows by 3 columns (height 2, width 3). -/
def twoFrames : List Frame := [[[0, 0, 0], [0, 0, 0]], [[0, 0, 0], [0, 0, 0]]]

/-- C10: on a non-square image (height 2, width 3) with a backend window
center at y = 1, doOpenPIV stores u unchanged, v negated, x unchanged, and
y flipped to width - y = 3 - 1 = 2 — not height - y = 2 - 1 = 1 as the claim
states, because the source subtracts y from arr.shape[2] (the width). -/
theorem openpiv_yflip_bug :
    doOpenPIV constCoords constPiv twoFrames =
      .ok ([[[((2 : ℚ), (-3 : ℚ))]]], [[((5 : ℚ), (2 : ℚ))]]) ∧
    doOpenPIV constCoords constPiv twoFrames ≠
      .ok ([[[((2 : ℚ), (-3 : ℚ))]]], [[((5 : ℚ), (1 : ℚ))]]) := by
  have h1 : doOpenPIV constCoords constPiv twoFrames =
      .ok ([[[((2 : ℚ), (-3 : ℚ))]]], [[((5 : ℚ), (2 : ℚ))]]) := by
    norm_num [doOpenPIV, constCoords, constPiv, twoFrames, zipUV, List.range_succ]
  refine ⟨h1, ?_⟩
  rw [h1]
  intro hcontra
  simp only [Except.ok.injEq, Prod.mk.injEq] at hcontra
  have := hcontra.2
  simp only [List.cons.injEq, Prod.mk.injEq] at this
  exact absurd this.1.1.2 (by norm_num)

/-- The mutable attribute state of a Channel relevant to getArray:
self.pages (the tif pages, each page.asarray() giving one Frame),
self.array (initialized to the empty np.empty((0))), and an observational
count of page.asarray() calls performed so far. -/
structure ChannelState where
  pages : List Frame
  array : List Frame
  pageReads : ℕ
deriving DecidableEq

/-- Channel.getArray: if self.array is nonempty it is returned; otherwise a
fresh array is stacked from self.pages (reading each page once, in index
order) and returned.  The source never assigns self.array, so the array
attribute is left unchanged. -/
def getArray (s : ChannelState) : List Frame × ChannelState :=
  if s.array.length ≠ 0 then (s.array, s)
  else (s.pages, { s with pageReads := s.pageReads + s.pages.length })

/-- C3: on a one-page channel getArray returns the stacked pages in index
order, but the array attribute is still empty afterwards and a second call
reads the page from the source again (2 reads in total): the result is never
cached, contrary to the claim. -/
theorem getArray_not_cached :
    (getArray ⟨[[[5]]], [], 0⟩).1 = [[[5]]] ∧
    (getArray ⟨[[[5]]], [], 0⟩).2.array = [] ∧
    (getArray (getArray ⟨[[[5]]], [], 0⟩).2).2.pageReads = 2 := by
  refine ⟨rfl, rfl, rfl⟩

/-- Insertion step of a sort over rationals. -/
def insertSorted (x : ℚ) : List ℚ → List ℚ
  | [] => [x]
  | y :: ys => if x ≤ y then x :: y :: ys else y :: insertSorted x ys

/-- Sorting as performed internally by np.median. -/
def sortQ (l : List ℚ) : List ℚ := l.foldr insertSorted []

/-- np.median of a 1D array: middle element of the sorted data for odd
length, average of the two middle elements for even length. -/
def median (l : List ℚ) : ℚ :=
  let s := sortQ l
  if l.length % 2 = 1 then s.getD (l.length / 2) 0
  else (s.getD (l.length / 2 - 1) 0 + s.getD (l.length / 2) 0) / 2

/-- np.median(stack, axis=0): the output pixel at (r, c) is the median over
the time axis of the input pixels at (r, c); the output has the spatial
shape of the first frame. -/
def medianFrame (frames : List Frame) : Frame :=
  let f0 := frames.headD []
  (List.range f0.length).map fun r =>
    (List.range (f0.getD r []).length).map fun c =>
      median (frames.map fun fr => (fr.getD r []).getD c 0)

/-- Python range(start, stop, step) for a positive step. -/
def pyRange (start stop step : ℕ) : List ℕ :=
  (List.range ((stop - start + step - 1) / step)).map fun k => start + k * step

/-- The result state of MedianChannel.doTemporalMedianFilter: the value the
method returns (the literal int 1 on success) together with the
self.medianArray attribute it fills in. -/
structure MedianChannel where
  array : ℕ
  medianArray : List Frame
deriving DecidableEq

/-- MedianChannel.doTemporalMedianFilter: validates the frame bounds, sizes
the output array (nr_outframes), then writes one median projection per loop
iteration.  In staggered mode the loop iterates over range(start, stop,
window) — ceil((stop-start)/window) iterations — while the output array only
has floor((stop-start)/window) slots, so a non-divisible span raises an
IndexError on the write past the end.  np.median over a slice
arr[i : i + window] clamps at the array end like Python slicing. -/
def doTemporalMedianFilter (pages_len : ℕ) (parentArr : List Frame)
    (doGlidingProjection : Bool) (startFrame stopFrame frameSamplingInterval : ℕ) :
    Except String (List Frame × ℕ) :=
  if stopFrame > pages_len then
    .error "StopFrame cannot be None or larger than number of frames!"
  else if startFrame ≥ stopFrame then
    .error "StartFrame cannot be larger than or equal to Stopframe!"
  else if stopFrame - startFrame < frameSamplingInterval then
    .error "Not enough frames selected to do median projection!"
  else
    let nr_outframes := if doGlidingProjection then
        (stopFrame - startFrame) - (frameSamplingInterval - 1)
      else (stopFrame - startFrame) / frameSamplingInterval
    let inframes := if doGlidingProjection then
        pyRange startFrame (stopFrame - frameSamplingInterval + 1) 1
      else pyRange startFrame stopFrame frameSamplingInterval
    if inframes.length > nr_outframes then
      .error "IndexError: index out of bounds for axis 0"
    else
      .ok (inframes.map fun i =>
        medianFrame ((parentArr.drop i).take frameSamplingInterval), 1)

/-- MedianChannel.__init__: resolves the stopFrame default, runs the filter
on the parent channel's array (parent.getArray() = its pages) and assigns
self.array the RETURN VALUE of doTemporalMedianFilter — which is the int 1,
not the filtered data; the filtered float data ends up in
self.medianArray. -/
def mkMedianChannel (parentPages : List Frame) (doGlidingProjection : Bool)
    (frameSamplingInterval startFrame : ℕ) (stopFrame : Option ℕ) :
    Except String MedianChannel :=
  let stop := stopFrame.getD parentPages.length
  match doTemporalMedianFilter parentPages.length parentPages doGlidingProjection
      startFrame stop frameSamplingInterval with
  | .error e => .error e
  | .ok (med, ret) => .ok ⟨ret, med⟩

/-- C4: a successfully constructed MedianChannel has self.array equal to the
integer 1 (the success flag returned by doTemporalMedianFilter), not the
median-filtered 3D data, which is only stored in self.medianArray.  The
second conjunct records that a temporal median of integer samples is
genuinely non-integral (so a floating point output type is required, as the
claim says of the intended data). -/
theorem medianChannel_array_is_flag :
    mkMedianChannel [[[0]], [[2]], [[4]]] true 3 0 none = .ok ⟨1, [[[2]]]⟩ ∧
    median [(1 : ℚ), 2] = 3 / 2 := by
  constructor
  · rfl
  · norm_num [median, sortQ, insertSorted]

/-- Ten one-pixel frames with samples 0..9. -/
def tenFrames : List Frame :=
  [[[0]], [[1]], [[2]], [[3]], [[4]], [[5]], [[6]], [[7]], [[8]], [[9]]]

/-- C5: with 10 input frames, window 3, start 0, stop 10, the gliding
projection succeeds with 10 - (3 - 1) = 8 output frames as claimed, but the
staggered projection does not produce floor(10/3) = 3 frames: the loop
iterates 4 times over a 3-slot output and the write at index 3 raises an
IndexError. -/
theorem temporalMedian_staggered_overrun :
    mkMedianChannel tenFrames true 3 0 none =
      .ok ⟨1, [[[1]], [[2]], [[3]], [[4]], [[5]], [[6]], [[7]], [[8]]]⟩ ∧
    mkMedianChannel tenFrames false 3 0 none =
      .error "IndexError: index out of bounds for axis 0" := by
  refine ⟨rfl, rfl⟩

/-- IopAnalysis._smvvm (Square Mean Vectorial Velocity Magnitude): the sum of
the squared averages of the two component arrays. -/
def smvvm (u v : List ℚ) : ℚ := (mean u) ^ 2 + (mean v) ^ 2

/-- Modelled from the spec: `_msv` (Mean Square Velocity) is called by
IopAnalysis._instantaneous_order_parameter but is defined nowhere in the
source; per the spec's formula IOP = |mean(u,v)|^2 / mean(u^2 + v^2) the
denominator is the mean of the squared vector magnitudes. -/
def msv (u v : List ℚ) : ℚ :=
  mean (List.zipWith (fun a b => a ^ 2 + b ^ 2) u v)

/-- IopAnalysis._instantaneous_order_parameter: smvvm / msv. -/
def instantaneous_order_parameter (u v : List ℚ) : ℚ := smvvm u v / msv u v

/-- Cauchy-Schwarz for a list against the all-ones vector: the square of the
sum is at most the length times the sum of squares. -/
theorem list_sq_sum_le (l : List ℚ) :
    l.sum ^ 2 ≤ (l.length : ℚ) * (l.map fun x => x ^ 2).sum := by
  induction l with
  | nil => simp
  | cons a t ih =>
    have hq : 0 ≤ (t.map fun x => x ^ 2).sum := by
      apply List.sum_nonneg
      intro x hx
      obtain ⟨y, _, rfl⟩ := List.mem_map.mp hx
      positivity
    cases t with
    | nil => simp
    | cons b s =>
      have hn : (0 : ℚ) ≤ (s.length : ℚ) := Nat.cast_nonneg _
      simp only [List.sum_cons, List.map_cons, List.length_cons] at *
      push_cast at ih ⊢
      nlinarith [ih, hq, hn,
        sq_nonneg (((s.length : ℚ) + 1) * a - (b + s.sum))]

/-- Componentwise sum-of-squares of two equal-length lists splits into the
two sums of squares. -/
theorem sum_zipWith_sq (u v : List ℚ) (h : u.length = v.length) :
    (List.zipWith (fun a b => a ^ 2 + b ^ 2) u v).sum =
      (u.map fun x => x ^ 2).sum + (v.map fun x => x ^ 2).sum := by
  induction u generalizing v with
  | nil =>
    cases v with
    | nil => simp
    | cons b s => simp at h
  | cons a t ih =>
    cases v with
    | nil => simp at h
    | cons b s =>
      simp only [List.length_cons, Nat.succ.injEq] at h
      simp only [List.zipWith_cons_cons, List.sum_cons, List.map_cons]
      rw [ih s h]
      ring

/-- Sums of squares over a list are nonnegative. -/
theorem sum_map_sq_nonneg (l : List ℚ) : 0 ≤ (l.map fun x => x ^ 2).sum := by
  apply List.sum_nonneg
  intro x hx
  obtain ⟨y, _, rfl⟩ := List.mem_map.mp hx
  positivity

/-- C6: wherever the denominator is nonzero (it is the mean squared
magnitude, so this is exactly where the IOP is defined), the instantaneous
order parameter |mean(u,v)|^2 / mean(u^2+v^2) lies in [0, 1]; and on a
perfectly uniform field of n >= 1 identical non-zero vectors (a, b) it
equals exactly 1. -/
theorem iop_range_and_uniform (u v : List ℚ) (hlen : u.length = v.length)
    (hmsv : msv u v ≠ 0) (n : ℕ) (a b : ℚ) (hn : 1 ≤ n)
    (hab : ¬(a = 0 ∧ b = 0)) :
    (0 ≤ instantaneous_order_parameter u v ∧
      instantaneous_order_parameter u v ≤ 1) ∧
    instantaneous_order_parameter (List.replicate n a) (List.replicate n b) = 1 := by
  constructor
  · have hulen : u ≠ [] := by
      intro hnil
      apply hmsv
      subst hnil
      simp [msv, mean]
    have hNpos : (0 : ℚ) < u.length := by
      have := List.length_pos_of_ne_nil hulen
      exact_mod_cast this
    have hziplen : (List.zipWith (fun a b => a ^ 2 + b ^ 2) u v).length = u.length := by
      rw [List.length_zipWith, hlen, Nat.min_self]
    have hmsveq : msv u v =
        ((u.map fun x => x ^ 2).sum + (v.map fun x => x ^ 2).sum) / u.length := by
      rw [msv, mean, hziplen, sum_zipWith_sq u v hlen]
    have hmsvnonneg : 0 ≤ msv u v := by
      rw [hmsveq]
      have := sum_map_sq_nonneg u
      have := sum_map_sq_nonneg v
      positivity
    have hmsvpos : 0 < msv u v := lt_of_le_of_ne hmsvnonneg (Ne.symm hmsv)
    have hsmvvm : 0 ≤ smvvm u v := by
      rw [smvvm]
      positivity
    refine ⟨div_nonneg hsmvvm hmsvnonneg, ?_⟩
    have hv := list_sq_sum_le v
    rw [← hlen] at hv
    rw [instantaneous_order_parameter, div_le_one hmsvpos, smvvm, mean, mean,
      ← hlen, hmsveq, div_pow, div_pow, div_add_div_same,
      div_le_div_iff₀ (by positivity) hNpos]
    nlinarith [list_sq_sum_le u, hv, hNpos.le,
      sum_map_sq_nonneg u, sum_map_sq_nonneg v]
  · have hnn : (0 : ℚ) < n := by exact_mod_cast hn
    have hmean : ∀ c : ℚ, mean (List.replicate n c) = c := by
      intro c
      rw [mean, List.sum_replicate, List.length_replicate, nsmul_eq_mul]
      field_simp
    have hzip : List.zipWith (fun a b => a ^ 2 + b ^ 2)
        (List.replicate n a) (List.replicate n b) =
        List.replicate n (a ^ 2 + b ^ 2) := by
      rw [List.zipWith_replicate, Nat.min_self]
    have hm : msv (List.replicate n a) (List.replicate n b) = a ^ 2 + b ^ 2 := by
      rw [msv, hzip, hmean]
    have hs : smvvm (List.replicate n a) (List.replicate n b) = a ^ 2 + b ^ 2 := by
      rw [smvvm, hmean, hmean]
    have hab2 : a ^ 2 + b ^ 2 ≠ 0 := by
      intro h0
      exact hab ⟨by nlinarith [sq_nonneg a, sq_nonneg b],
        by nlinarith [sq_nonneg a, sq_nonneg b]⟩
    rw [instantaneous_order_parameter, hm, hs, div_self hab2]

/-- C6 witness: a concrete mixed field has IOP in [0, 1], and the uniform
2-vector field of (3, 4)s has IOP exactly 1. -/
theorem iop_range_and_uniform_witness :
    ((0 ≤ instantaneous_order_parameter [1, 0] [0, 1] ∧
      instantaneous_order_parameter [1, 0] [0, 1] ≤ 1) ∧
     instantaneous_order_parameter (List.replicate 2 (3 : ℚ))
       (List.replicate 2 4) = 1) :=
  iop_range_and_uniform [1, 0] [0, 1] rfl (by norm_num [msv, mean]) 2 3 4
    (by norm_num) (by norm_num)

/-- np.mean over real samples (the alignment-index computation is modelled
over exact reals, with np.sqrt as Real.sqrt). -/
noncomputable def meanR (l : List ℝ) : ℝ := l.sum / l.length

/-- One entry of AlignmentIndexAnalysis._alignment_index, for the pixel
vector (a, b) against a frame whose mean vector is (u0, v0):
vector_0 = (u0, v0), v0_magnitude = |(u0, v0)|, the pixel magnitude is
sqrt(a^2 + b^2), and ai = (a*u0 + b*v0) / (|pixel| * |vector_0|).
np.divide yields NaN where the denominator is zero (the numerator is zero
there too, since a zero magnitude forces the corresponding vector to be
zero); NaN is modelled as `none`. -/
noncomputable def aiEntry (u0 v0 a b : ℝ) : Option ℝ :=
  let v0_magnitude := Real.sqrt (u0 ^ 2 + v0 ^ 2)
  let vector_magnitude := Real.sqrt (a ^ 2 + b ^ 2)
  let magnitude_product := vector_magnitude * v0_magnitude
  if magnitude_product = 0 then none
  else some ((a * u0 + b * v0) / magnitude_product)

/-- AlignmentIndexAnalysis._alignment_index on a (flattened) frame given as
its u-component and v-component arrays: every pixel is scored against the
frame's spatial mean vector (mean u, mean v). -/
noncomputable def alignment_index (u v : List ℝ) : List (Option ℝ) :=
  List.zipWith (aiEntry (meanR u) (meanR v)) u v

/-- C7: the alignment index of each pixel is the cosine similarity of the
pixel vector and the frame's mean vector; every defined (non-none) entry
lies in [-1, 1], and where either magnitude is zero the entry is NaN
(`none`) rather than an error. -/
theorem alignment_index_range_nan (u v : List ℝ) (a b : ℝ) :
    alignment_index u v = List.zipWith (aiEntry (meanR u) (meanR v)) u v ∧
    (∀ r, aiEntry (meanR u) (meanR v) a b = some r → -1 ≤ r ∧ r ≤ 1) ∧
    (Real.sqrt (a ^ 2 + b ^ 2) = 0 ∨
        Real.sqrt ((meanR u) ^ 2 + (meanR v) ^ 2) = 0 →
      aiEntry (meanR u) (meanR v) a b = none) := by
  set u0 := meanR u
  set v0 := meanR v
  refine ⟨rfl, ?_, ?_⟩
  · intro r hr
    by_cases hD : Real.sqrt (a ^ 2 + b ^ 2) * Real.sqrt (u0 ^ 2 + v0 ^ 2) = 0
    · rw [aiEntry] at hr
      simp only [hD, if_pos] at hr
      exact absurd hr (by simp)
    · rw [aiEntry] at hr
      simp only [if_neg hD, Option.some.injEq] at hr
      subst hr
      have hDnonneg : 0 ≤ Real.sqrt (a ^ 2 + b ^ 2) * Real.sqrt (u0 ^ 2 + v0 ^ 2) :=
        mul_nonneg (Real.sqrt_nonneg _) (Real.sqrt_nonneg _)
      have hDpos : 0 < Real.sqrt (a ^ 2 + b ^ 2) * Real.sqrt (u0 ^ 2 + v0 ^ 2) :=
        lt_of_le_of_ne hDnonneg (Ne.symm hD)
      have hDsq : (Real.sqrt (a ^ 2 + b ^ 2) * Real.sqrt (u0 ^ 2 + v0 ^ 2)) ^ 2 =
          (a ^ 2 + b ^ 2) * (u0 ^ 2 + v0 ^ 2) := by
        rw [mul_pow, Real.sq_sqrt (by positivity), Real.sq_sqrt (by positivity)]
      have hcs : (a * u0 + b * v0) ^ 2 ≤
          (Real.sqrt (a ^ 2 + b ^ 2) * Real.sqrt (u0 ^ 2 + v0 ^ 2)) ^ 2 := by
        rw [hDsq]
        nlinarith [sq_nonneg (a * v0 - b * u0)]
      constructor
      · rw [le_div_iff₀ hDpos]
        nlinarith [hcs, sq_nonneg (a * u0 + b * v0 +
          Real.sqrt (a ^ 2 + b ^ 2) * Real.sqrt (u0 ^ 2 + v0 ^ 2))]
      · rw [div_le_one hDpos]
        nlinarith [hcs, sq_nonneg (a * u0 + b * v0 -
          Real.sqrt (a ^ 2 + b ^ 2) * Real.sqrt (u0 ^ 2 + v0 ^ 2))]
  · intro hzero
    have hD : Real.sqrt (a ^ 2 + b ^ 2) * Real.sqrt (u0 ^ 2 + v0 ^ 2) = 0 := by
      rcases hzero with h | h
      · rw [h, zero_mul]
      · rw [h, mul_zero]
    rw [aiEntry]
    simp only [hD, if_pos]

/-- C7 witness: on the one-pixel frame with vector (1, 0) the alignment
index is defined and equals 1, which lies in [-1, 1]. -/
theorem alignment_index_range_nan_witness : -1 ≤ (1 : ℝ) ∧ (1 : ℝ) ≤ 1 :=
  (alignment_index_range_nan [1] [0] 1 0).2.1 1 (by
    have hu : meanR [1] = 1 := by norm_num [meanR]
    have hv : meanR [0] = 0 := by norm_num [meanR]
    rw [aiEntry, hu, hv]
    norm_num [Real.sqrt_one])

/-- numpy elementwise np.isnan followed by .any(): true when the array
contains a NaN (`none`). -/
def anyNaN (arr : List (List (Option ℚ))) : Bool :=
  arr.any fun fr => fr.any fun x => x.isNone

/-- np.mean of a (flattened) frame possibly containing NaN: the plain mean,
which is NaN when the frame is empty or when any entry is NaN. -/
def npMean (frame : List (Option ℚ)) : Option ℚ :=
  if frame.isEmpty then none
  else if frame.any (fun x => x.isNone) then none
  else some (mean (frame.filterMap id))

/-- np.nanmean of a (flattened) frame: the mean of the non-NaN entries, NaN
when none remain. -/
def npNanmean (frame : List (Option ℚ)) : Option ℚ :=
  let vals := frame.filterMap id
  if vals.isEmpty then none else some (mean vals)

/-- FlowSpeedAnalysis.calculateAverageSpeeds: checks np.isnan(speeds).any()
over the whole (t, x, y) speed array, then takes per-frame nanmean (if any
NaN is present) or plain mean over the spatial axes. -/
def calculateAverageSpeeds (speeds : List (List (Option ℚ))) : List (Option ℚ) :=
  if anyNaN speeds then speeds.map npNanmean
  else speeds.map npMean

/-- numpy truthiness of a float scalar: anything but 0.0 (including NaN) is
truthy — this is what `arr.any()` reduces each element with. -/
def npTruthy (x : Option ℚ) : Bool := x ≠ some 0

/-- np.isnan applied to the BOOLEAN scalar produced by arr.any(): the bool
converts to 0.0 or 1.0, neither of which is NaN, so the result is always
False. -/
def npIsnanBool (_ : Bool) : Bool := false

/-- AlignmentIndexAnalysis.calculateAverage: the guard is written
np.isnan(self.alignment_idxs.any()) — isnan of the reduced truthiness
scalar — so the nanmean branch is unreachable and the plain per-frame mean
is always used. -/
def calculateAverage (ai : List (List (Option ℚ))) : List (Option ℚ) :=
  if npIsnanBool (ai.any fun fr => fr.any npTruthy) then ai.map npNanmean
  else ai.map npMean

/-- C8: on an array whose single frame holds one speed value 1 and one NaN,
calculateAverageSpeeds skips the NaN (frame average 1) as the claim says,
but calculateAverage on the same data returns NaN for the frame: its
NaN-presence guard tests isnan of a single reduced boolean, which is always
false, so NaNs propagate into the alignment-index averages. -/
theorem nan_average_guard_bug :
    calculateAverageSpeeds [[some 1, none]] = [some 1] ∧
    calculateAverage [[some 1, none]] = [none] := by
  constructor
  · norm_num [calculateAverageSpeeds, anyNaN, npNanmean, mean, List.filterMap_cons]
  · norm_num [calculateAverage, npIsnanBool, npMean]

/-- Channel.getActualFrameIntevals_ms (name as in the source): None for a
single-frame channel, otherwise the consecutive differences of the elapsed
timestamps (length = frame count - 1). -/
def getActualFrameIntevals_ms (elapsedTimes_ms : List ℚ) : Option (List ℚ) :=
  if elapsedTimes_ms.length = 1 then none
  else some (List.zipWith (fun a b => b - a) elapsedTimes_ms elapsedTimes_ms.tail)

/-- Channel.doFrameIntervalSanityCheck: None for a single-frame channel;
False outright when the intended interval is 0; otherwise compares
|1 - mean(actual)/intended| with maxDiff under a STRICT less-than. -/
def doFrameIntervalSanityCheck (elapsedTimes_ms : List ℚ) (finterval_ms : ℚ)
    (maxDiff : ℚ) : Option Bool :=
  if elapsedTimes_ms.length = 1 then none
  else if finterval_ms = 0 then some false
  else
    let intervals := (getActualFrameIntevals_ms elapsedTimes_ms).getD []
    let fract := mean intervals / finterval_ms
    some (decide (|1 - fract| < maxDiff))

/-- C9 counterexample: a channel whose mean actual interval is 101 ms
against a nominal 100 ms FAILS the check at maxDiff = 0.01, although the
claim says the 1% boundary passes: the source comparison is strict
(|1 - fract| < maxDiff), and |1 - 101/100| = 1/100 is not < 1/100. -/
theorem sanity_check_boundary_counterexample :
    doFrameIntervalSanityCheck [0, 101] 100 (1 / 100) = some false := by
  norm_num [doFrameIntervalSanityCheck, getActualFrameIntevals_ms, mean]
  exact le_trans (by norm_num) (le_abs_self _)

/-- C9 amended: doFrameIntervalSanityCheck returns a null result for
single-frame channels, False when the nominal interval is zero, and
otherwise False exactly when the mean actual interval deviates from the
nominal by AT LEAST maxDiff as a fraction (strict pass condition), so
nominal 100 ms with mean actual 101 ms fails at maxDiff = 0.01 and mean
actual 102 ms fails as well. -/
theorem sanity_check_amended (elapsed : List ℚ) (finterval maxDiff : ℚ) :
    (elapsed.length = 1 → doFrameIntervalSanityCheck elapsed finterval maxDiff = none) ∧
    (elapsed.length ≠ 1 → finterval = 0 →
      doFrameIntervalSanityCheck elapsed finterval maxDiff = some false) ∧
    (elapsed.length ≠ 1 → finterval ≠ 0 →
      (doFrameIntervalSanityCheck elapsed finterval maxDiff = some false ↔
        maxDiff ≤ |1 - mean (List.zipWith (fun a b => b - a) elapsed elapsed.tail)
          / finterval|)) ∧
    doFrameIntervalSanityCheck [0, 101] 100 (1 / 100) = some false ∧
    doFrameIntervalSanityCheck [0, 102] 100 (1 / 100) = some false := by
  refine ⟨fun h1 => ?_, fun h1 h0 => ?_, fun h1 h0 => ?_, ?_, ?_⟩
  · rw [doFrameIntervalSanityCheck, if_pos h1]
  · rw [doFrameIntervalSanityCheck, if_neg h1, if_pos h0]
  · rw [doFrameIntervalSanityCheck, if_neg h1, if_neg h0,
      getActualFrameIntevals_ms, if_neg h1]
    simp only [Option.getD_some, Option.some.injEq, decide_eq_false_iff_not, not_lt]
  · norm_num [doFrameIntervalSanityCheck, getActualFrameIntevals_ms, mean]
    exact le_trans (by norm_num) (le_abs_self _)
  · norm_num [doFrameIntervalSanityCheck, getActualFrameIntevals_ms, mean]
    exact le_trans (by norm_num) (le_abs_self _)

/-- C9 amended witness: a two-frame channel with actual interval 102 ms and
nominal 100 ms fails the check at maxDiff = 0.01, via the amended
characterization. -/
theorem sanity_check_amended_witness :
    doFrameIntervalSanityCheck [0, 102] 100 (1 / 100) = some false :=
  ((sanity_check_amended [0, 102] 100 (1 / 100)).2.2.1 (by norm_num)
    (by norm_num)).mpr (by
      norm_num [mean]
      exact le_trans (by norm_num) (le_abs_self _))

end Cellocity
